import Mathlib

/-!
Shallow embedding of the pgext OpenTelemetry query hook (src/otel.go of
github.com/j2gg0s/pgext) and proofs about its behavior.

Modelling conventions:
* Go strings are modelled as Lean strings viewed as their character list
  (identical to Go's byte view on ASCII data, which is all this code inspects).
* The span and metric side effects of AfterQuery are reified as an ordered
  effect list; Go defer semantics (LIFO at function exit) are modelled by
  appending the deferred effects, in the order they run, to the body's effects.
* Capability type assertions (evt.Query.(queryOperation), evt.DB.(*pg.DB),
  evt.Params[0].(orm.TableModel)) are modelled as optional fields of the event.
* time.Since(evt.StartTime).Microseconds() is an input (elapsedMicros), as real
  time is outside the embedding.
* runtime.Callers(3, pcs[:]) is modelled by passing the call stack starting
  3 frames above the helper as a list of frames.
-/

namespace Pgext

/-- Go strings.IndexByte on a character list: index of the first occurrence of
c, or -1 when absent. -/
def indexByteList (c : Char) : List Char → Int
  | [] => -1
  | x :: xs =>
    if x = c then 0
    else
      let r := indexByteList c xs
      if r = -1 then -1 else r + 1

/-- Go strings.IndexByte(s, c). -/
def indexByte (s : String) (c : Char) : Int := indexByteList c s.data

/-- Go strings.LastIndexByte on a character list: index of the last occurrence
of c, or -1 when absent. -/
def lastIndexByteList (c : Char) : List Char → Int
  | [] => -1
  | x :: xs =>
    let r := lastIndexByteList c xs
    if r ≠ -1 then r + 1
    else if x = c then 0 else -1

/-- Go strings.LastIndexByte(s, c). -/
def lastIndexByte (s : String) (c : Char) : Int := lastIndexByteList c s.data

/-- Boolean test that pat is a prefix of the second list. -/
def listIsPrefixB : List Char → List Char → Bool
  | [], _ => true
  | _ :: _, [] => false
  | p :: ps, c :: cs => p = c && listIsPrefixB ps cs

/-- Boolean substring containment: pat occurs (contiguously) in the list. -/
def listContainsSub (pat : List Char) : List Char → Bool
  | [] => listIsPrefixB pat []
  | c :: cs => listIsPrefixB pat (c :: cs) || listContainsSub pat cs

/-- Go strings.Contains(s, pat). -/
def strContains (s pat : String) : Bool := listContainsSub pat.data s.data

/-- Drop leading whitespace characters from a character list. -/
def dropWhileSpace : List Char → List Char
  | [] => []
  | c :: cs => if c.isWhitespace then dropWhileSpace cs else c :: cs

/-- Go strings.TrimSpace(s): remove leading and trailing whitespace. -/
def trimSpace (s : String) : String :=
  ⟨(dropWhileSpace ((dropWhileSpace s.data).reverse)).reverse⟩

/-- Go len(s) (character count; byte count on ASCII data). -/
def strLen (s : String) : Nat := s.data.length

/-- Go slicing s[:n]. -/
def strTake (s : String) (n : Nat) : String := ⟨s.data.take n⟩

/-- Go slicing s[n:]. -/
def strDrop (s : String) (n : Nat) : String := ⟨s.data.drop n⟩

/-- orm.InsertOp of go-pg (orm.QueryOp is a string type; the zero value ""
denotes an untagged event). -/
def InsertOp : String := "INSERT"

/-- The metric label key sql.method (otel.go line 27). -/
def methodKey : String := "sql.method"

/-- The metric label key sql.instance (otel.go line 26). -/
def instanceKey : String := "sql.instance"

/-- The metric label key sql.table (otel.go line 28). -/
def tableKey : String := "sql.table"

/-- A metric label key-value pair (label.KeyValue; all metric labels built by
this hook carry string values). -/
structure Label where
  key : String
  val : String
deriving Repr, DecidableEq

/-- statusOKLabel = label.String("sql.status", "OK") (otel.go line 29). -/
def statusOKLabel : Label := ⟨"sql.status", "OK"⟩

/-- statusErrorLabel = label.String("sql.status", "Error") (otel.go line 30). -/
def statusErrorLabel : Label := ⟨"sql.status", "Error"⟩

/-- A span attribute (label.KeyValue with either a string or an int value). -/
inductive Attr where
  | str (key val : String)
  | int (key : String) (val : Int)
deriving Repr, DecidableEq

/-- A Go error value: the two pg sentinels compared against in AfterQuery, or
any other error. -/
inductive GoError where
  | errNoRows
  | errMultiRows
  | other (msg : String)
deriving Repr, DecidableEq

/-- orm.Result: the result descriptor (RowsAffected, RowsReturned). -/
structure PGResult where
  rowsAffected : Int
  rowsReturned : Int
deriving Repr, DecidableEq

/-- pg.Options as consumed by AfterQuery (Addr, User, Database). -/
structure PGOptions where
  addr : String
  user : String
  database : String
deriving Repr, DecidableEq

instance {ε α : Type} [DecidableEq ε] [DecidableEq α] : DecidableEq (Except ε α) := fun a b =>
  match a, b with
  | .error e₁, .error e₂ =>
    if h : e₁ = e₂ then .isTrue (congrArg Except.error h)
    else .isFalse (fun hc => h (Except.error.inj hc))
  | .ok v₁, .ok v₂ =>
    if h : v₁ = v₂ then .isTrue (congrArg Except.ok h)
    else .isFalse (fun hc => h (Except.ok.inj hc))
  | .error _, .ok _ => .isFalse (fun hc => Except.noConfusion hc)
  | .ok _, .error _ => .isFalse (fun hc => Except.noConfusion hc)

/-- pg.QueryEvent as consumed by the hook.  operation is the orm.QueryOp of
evt.Query when it implements queryOperation, "" otherwise (the Go zero value
used in AfterQuery for untagged queries).  dbOptions is some when
evt.DB.(*pg.DB) succeeds; firstParamTableModelName is some when evt.Params is
nonempty and evt.Params[0].(orm.TableModel) succeeds, holding
Table().ModelName. -/
structure QueryEvent where
  operation : String
  unformattedQuery : Except GoError String
  formattedQuery : Except GoError String
  err : Option GoError
  result : Option PGResult
  dbOptions : Option PGOptions
  firstParamTableModelName : Option String
deriving Repr, DecidableEq

/-- OpenTelemetryHook configuration (otel.go lines 38-43). -/
structure Hook where
  caller : Bool
  allowMetric : Bool
deriving Repr, DecidableEq

/-- A span or metric side effect performed by AfterQuery, in order. -/
inductive Effect where
  | setName (name : String)
  | setStatusError (msg : String)
  | recordError (e : GoError)
  | setAttributes (attrs : List Attr)
  | spanEnd
  | metricRecord (micros : Int) (labels : List Label)
deriving Repr, DecidableEq

/-- A call-stack frame as produced by runtime.CallersFrames. -/
structure Frame where
  function : String
  file : String
  line : Int
deriving Repr, DecidableEq, Inhabited

/-- The frame-scanning loop of funcFileLine (otel.go lines 192-203), run over
the frames the Go loop actually observes: record each frame, stop at the
first one whose function name does not contain pkg; when the observed frames
run out, keep the last frame recorded (the accumulator starts at Go zero
values, matching the var declarations at lines 192-193). -/
def funcFileLineLoop (pkg : String) : List Frame → Frame → Frame
  | [], acc => acc
  | f :: rest, _ =>
    if strContains f.function pkg then funcFileLineLoop pkg rest f else f

/-- The final function-name rewrite of funcFileLine (otel.go lines 205-207):
keep only the part after the last '/'. -/
def stripLastSlash (fn : String) : String :=
  let ind := lastIndexByte fn '/'
  if ind ≠ -1 then strDrop fn (ind.toNat + 1) else fn

/-- funcFileLine (otel.go lines 186-210).  stack is the call stack starting 3
frames above the helper, as captured by runtime.Callers(3, pcs[:]); the pcs
buffer holds at most depth = 16 entries, hence the take 16.
runtime.Frames.Next returns (frame, more) where more indicates whether the
NEXT call will return a valid frame, so the final captured frame arrives
together with more = false; the loop tests that flag before reading the
frame (f, ok := ff.Next(); if !ok break, lines 195-198), so the last
captured frame is never recorded: the loop observes the captured window
minus its final frame, hence the dropLast. -/
def funcFileLine (pkg : String) (stack : List Frame) : String × String × Int :=
  let observed := (stack.take 16).dropLast
  let f := funcFileLineLoop pkg observed ⟨"", "", 0⟩
  (stripLastSlash f.function, f.file, f.line)

/-- The ambient context as consumed by BeforeQuery: whether
trace.SpanFromContext(ctx).IsRecording(), and the span this hook stored into
the context (by name), if any. -/
structure Ctx where
  ambientRecording : Bool
  hookSpan : Option String
deriving Repr, DecidableEq

/-- BeforeQuery (otel.go lines 47-54): when the ambient span is not recording,
return the context unchanged; otherwise start a span with empty name via
tracer.Start(ctx, "") and return the context carrying it.  Never errors. -/
def beforeQuery (ctx : Ctx) : Ctx × Option GoError :=
  if !ctx.ambientRecording then (ctx, none)
  else ({ ctx with hookSpan := some "" }, none)

/-- Statement extraction (otel.go lines 84-97): an Insert-tagged event uses
evt.UnformattedQuery(), every other event uses evt.FormattedQuery(). -/
def chosenQuery (evt : QueryEvent) : Except GoError String :=
  if evt.operation = InsertOp then evt.unformattedQuery else evt.formattedQuery

/-- Name derivation for untagged events (otel.go lines 105-111 plus the
TrimSpace applied at both use sites, lines 113 and 115): cut at the first
space only when its index is positive, truncate to 20 characters, trim. -/
def deriveName (query : String) : String :=
  let name := query
  let name := if indexByte name ' ' > 0 then strTake name (indexByte name ' ').toNat else name
  let name := if strLen name > 20 then strTake name 20 else name
  trimSpace name

/-- Operation naming (otel.go lines 99-116): the span-name effect (emitted
only when the span is recording) and the sql.method metric label. -/
def opNameUpdate (sr : Bool) (operation query : String) : List Effect × List Label :=
  if operation ≠ "" then
    ((if sr then [Effect.setName operation] else []), [⟨methodKey, operation⟩])
  else
    ((if sr then [Effect.setName (deriveName query)] else []),
     [⟨methodKey, deriveName query⟩])

/-- 5000, the db.statement size cap (otel.go line 118). -/
def queryLimit : Nat := 5000

/-- Caller attribution (otel.go lines 124-131): three frame attributes when
h.Caller is set. -/
def callerAttrs (caller : Bool) (stack : List Frame) : List Attr :=
  if caller then
    let r := funcFileLine "github.com/go-pg/pg" stack
    [Attr.str "frame.func" r.1, Attr.str "frame.file" r.2.1, Attr.int "frame.line" r.2.2]
  else []

/-- Connection attributes and instance label (otel.go lines 138-148). -/
def dbAttrsLabels : Option PGOptions → List Attr × List Label
  | some opt =>
    ([Attr.str "db.connection_string" opt.addr,
      Attr.str "db.user" opt.user,
      Attr.str "db.name" opt.database],
     if strLen opt.database > 0 then [⟨instanceKey, opt.database⟩] else [])
  | none => ([], [])

/-- Table label (otel.go lines 150-158). -/
def tableLabels : Option String → List Label
  | some modelName => if strLen modelName > 0 then [⟨tableKey, modelName⟩] else []
  | none => []

/-- Outcome classification (otel.go lines 160-177): span effects (only when
recording), extra attributes, extra metric labels. -/
def outcomeUpdate (sr : Bool) (err : Option GoError) (result : Option PGResult) :
    List Effect × List Attr × List Label :=
  match err with
  | some e =>
    ((if sr then
        (if e = GoError.errNoRows ∨ e = GoError.errMultiRows then
          [Effect.setStatusError ""]
        else [Effect.recordError e])
      else []),
     [], [statusErrorLabel])
  | none =>
    match result with
    | some r =>
      let numRow := if r.rowsAffected = 0 then r.rowsReturned else r.rowsAffected
      ([], [Attr.int "db.rows_affected" numRow], [statusOKLabel])
    | none => ([], [], [])

/-- The per-call telemetry built by the body of AfterQuery once the statement
text is extracted (otel.go lines 99-181): span effects in source order
(SetName, then SetStatus or RecordError, then SetAttributes), the attribute
list, and the metric label list in source append order (method, instance,
table, status). -/
structure TelemetryOut where
  effects : List Effect
  attrs : List Attr
  labels : List Label
deriving Repr, DecidableEq

/-- AfterQuery body past statement extraction (otel.go lines 99-181). -/
def buildTelemetry (h : Hook) (sr : Bool) (evt : QueryEvent) (stack : List Frame)
    (query0 : String) : TelemetryOut :=
  let nameUp := opNameUpdate sr evt.operation query0
  let query := if strLen query0 > queryLimit then strTake query0 queryLimit else query0
  let dbUp := dbAttrsLabels evt.dbOptions
  let outUp := outcomeUpdate sr evt.err evt.result
  let attrs := callerAttrs h.caller stack
    ++ [Attr.str "db.system" "postgres", Attr.str "db.statement" query]
    ++ dbUp.1 ++ outUp.2.1
  let labels := nameUp.2 ++ dbUp.2 ++ tableLabels evt.firstParamTableModelName ++ outUp.2.2
  ⟨nameUp.1 ++ outUp.1 ++ (if sr then [Effect.setAttributes attrs] else []), attrs, labels⟩

/-- The deferred side effects of AfterQuery in the order Go runs them at
function exit (defers are LIFO: span.End is registered first at line 64, the
metric record second at lines 69-75, so the record fires first).  The label
slice is captured by the closure, so the record sees the labels at exit. -/
def deferredEffects (h : Hook) (sr : Bool) (elapsedMicros : Int)
    (labels : List Label) : List Effect :=
  (if h.allowMetric then [Effect.metricRecord elapsedMicros labels] else [])
    ++ (if sr then [Effect.spanEnd] else [])

/-- AfterQuery (otel.go lines 56-184).  sr is span.IsRecording() for the span
from ctx; returns the hook's error result and the ordered effect list. -/
def afterQuery (h : Hook) (sr : Bool) (evt : QueryEvent) (elapsedMicros : Int)
    (stack : List Frame) : Option GoError × List Effect :=
  if !sr && !h.allowMetric then (none, [])
  else
    match chosenQuery evt with
    | .error e => (some e, deferredEffects h sr elapsedMicros [])
    | .ok query =>
      let t := buildTelemetry h sr evt stack query
      (none, t.effects ++ deferredEffects h sr elapsedMicros t.labels)

/-- The state of the metric label slice at AfterQuery's exit (what the
deferred latency record sees), for calls past the fast path. -/
def afterQueryExitLabels (h : Hook) (sr : Bool) (evt : QueryEvent)
    (stack : List Frame) : List Label :=
  match chosenQuery evt with
  | .error _ => []
  | .ok query => (buildTelemetry h sr evt stack query).labels

/-- Predicate picking out the span-end effect. -/
def isSpanEnd : Effect → Bool
  | Effect.spanEnd => true
  | _ => false

/-- Predicate picking out the latency-record effect. -/
def isMetricRecordE : Effect → Bool
  | Effect.metricRecord _ _ => true
  | _ => false

/-- Untagged event whose formatted statement starts with whitespace (the
spec's example statement). -/
def evtLeadingSpace : QueryEvent :=
  ⟨"", .ok "", .ok "  SELECT * FROM t WHERE id=1", none, none, none, none⟩

/-- Untagged event with formatted statement "SELECT 1". -/
def evtSelect1 : QueryEvent := ⟨"", .ok "", .ok "SELECT 1", none, none, none, none⟩

/-- Untagged event whose formatted-statement extraction fails. -/
def evtFmtFail : QueryEvent :=
  ⟨"", .ok "x", .error (GoError.other "fmt fail"), none, none, none, none⟩

/-- Untagged event carrying the no-rows-found sentinel error. -/
def evtNoRows : QueryEvent :=
  ⟨"", .ok "", .ok "SELECT 1", some GoError.errNoRows, none, none, none⟩

/-- Untagged event with no error and a result of 0 rows affected, 7 rows
returned. -/
def evtRows7 : QueryEvent :=
  ⟨"", .ok "", .ok "SELECT 1", none, some ⟨0, 7⟩, none, none⟩

/-- A frame inside the go-pg library. -/
def pgFrameA : Frame := ⟨"github.com/go-pg/pg/v10/orm.query", "orm/query.go", 100⟩

/-- An application frame outside the library. -/
def appFrameA : Frame := ⟨"main.main", "app/main.go", 42⟩

/-- 16 library frames followed by one application frame: the first external
frame sits just beyond the 16-entry capture buffer. -/
def stackDeep : List Frame := List.replicate 16 pgFrameA ++ [appFrameA]

/-- A second library frame. -/
def pgFrameB : Frame := ⟨"github.com/go-pg/pg/v10.exec", "pg/conn.go", 7⟩

/-- A second application frame. -/
def appFrameB : Frame := ⟨"example.com/app/run.handler", "app/run.go", 9⟩

/-- 3 library frames, then one application frame, then a further frame below
it (so the application frame is not the final captured frame and is actually
observed by the loop). -/
def stackShallow : List Frame := [pgFrameB, pgFrameB, pgFrameB, appFrameB, appFrameA]

/-- Exactly 16 library frames. -/
def stackSixteen : List Frame := List.replicate 16 pgFrameB

/-- A third library frame, distinct from the others. -/
def pgFrameC : Frame := ⟨"github.com/go-pg/pg/v10.last", "pg/last.go", 16⟩

/-- 15 identical library frames followed by a distinct 16th library frame. -/
def stackSixteenDistinct : List Frame := List.replicate 15 pgFrameB ++ [pgFrameC]

theorem funcFileLineLoop_find (pkg : String) (l : List Frame) :
    ∀ (acc f : Frame),
      l.find? (fun g => !strContains g.function pkg) = some f →
      funcFileLineLoop pkg l acc = f := by
  induction l with
  | nil => intro acc f hf; simp at hf
  | cons a rest ih =>
    intro acc f hf
    cases hc : strContains a.function pkg with
    | true =>
      rw [List.find?_cons_of_neg _ (by simp [hc])] at hf
      simpa [funcFileLineLoop, hc] using ih a f hf
    | false =>
      rw [List.find?_cons_of_pos _ (by simp [hc])] at hf
      simp only [Option.some.injEq] at hf
      subst hf
      simp [funcFileLineLoop, hc]

theorem funcFileLineLoop_all (pkg : String) (l : List Frame) :
    ∀ acc : Frame,
      (∀ g ∈ l, strContains g.function pkg = true) →
      funcFileLineLoop pkg l acc = l.getLastD acc := by
  induction l with
  | nil => intro acc _; rfl
  | cons a rest ih =>
    intro acc h
    have ha : strContains a.function pkg = true := h a (List.mem_cons_self a rest)
    rw [List.getLastD_cons]
    simpa [funcFileLineLoop, ha] using ih a (fun g hg => h g (List.mem_cons_of_mem a hg))

theorem opNameUpdate_fst (sr : Bool) (op q : String) :
    (opNameUpdate sr op q).1
      = if sr then [Effect.setName (if op = "" then deriveName q else op)] else [] := by
  unfold opNameUpdate
  by_cases hop : op = "" <;> cases sr <;> simp [hop]

theorem opNameUpdate_snd (sr : Bool) (op q : String) :
    (opNameUpdate sr op q).2 = [⟨methodKey, if op = "" then deriveName q else op⟩] := by
  unfold opNameUpdate
  by_cases hop : op = "" <;> simp [hop]

theorem outcomeUpdate_err (sr : Bool) (e : GoError) (result : Option PGResult) :
    outcomeUpdate sr (some e) result
      = ((if sr then
            (if e = GoError.errNoRows ∨ e = GoError.errMultiRows then
              [Effect.setStatusError ""]
            else [Effect.recordError e])
          else []),
         [], [statusErrorLabel]) := rfl

theorem outcomeUpdate_ok (sr : Bool) (r : PGResult) :
    outcomeUpdate sr none (some r)
      = ([], [Attr.int "db.rows_affected"
            (if r.rowsAffected = 0 then r.rowsReturned else r.rowsAffected)],
         [statusOKLabel]) := rfl

theorem outcomeUpdate_neither (sr : Bool) : outcomeUpdate sr none none = ([], [], []) := rfl

theorem outcomeUpdate_effects_shape (sr : Bool) (err : Option GoError)
    (result : Option PGResult) (e : Effect) (he : e ∈ (outcomeUpdate sr err result).1) :
    e = Effect.setStatusError "" ∨ ∃ er, e = Effect.recordError er := by
  cases err with
  | none =>
    cases result with
    | none => simp [outcomeUpdate_neither] at he
    | some r => simp [outcomeUpdate_ok] at he
  | some er =>
    rw [outcomeUpdate_err] at he
    cases sr with
    | false => simp at he
    | true =>
      by_cases hs : er = GoError.errNoRows ∨ er = GoError.errMultiRows
      · simp only [hs, if_pos, if_true, List.mem_singleton] at he
        exact Or.inl he
      · simp only [hs, if_false, if_true, List.mem_singleton] at he
        exact Or.inr ⟨er, he⟩

theorem buildTelemetry_effects_mem (h : Hook) (sr : Bool) (evt : QueryEvent)
    (st : List Frame) (q : String) (e : Effect)
    (he : e ∈ (buildTelemetry h sr evt st q).effects) :
    (∃ n, e = Effect.setName n) ∨ e = Effect.setStatusError ""
      ∨ (∃ er, e = Effect.recordError er) ∨ ∃ a, e = Effect.setAttributes a := by
  simp only [buildTelemetry, List.mem_append] at he
  rcases he with (h1 | h2) | h3
  · rw [opNameUpdate_fst] at h1
    cases sr with
    | false => simp at h1
    | true =>
      simp only [if_true, List.mem_singleton] at h1
      exact Or.inl ⟨_, h1⟩
  · rcases outcomeUpdate_effects_shape sr evt.err evt.result e h2 with h | h
    · exact Or.inr (Or.inl h)
    · exact Or.inr (Or.inr (Or.inl h))
  · cases sr with
    | false => simp at h3
    | true =>
      simp only [if_true, List.mem_singleton] at h3
      exact Or.inr (Or.inr (Or.inr ⟨_, h3⟩))

theorem buildTelemetry_countP_spanEnd (h : Hook) (sr : Bool) (evt : QueryEvent)
    (st : List Frame) (q : String) :
    (buildTelemetry h sr evt st q).effects.countP isSpanEnd = 0 := by
  rw [List.countP_eq_zero]
  intro e he
  rcases buildTelemetry_effects_mem h sr evt st q e he with ⟨n, rfl⟩ | rfl | ⟨er, rfl⟩ | ⟨a, rfl⟩ <;>
    simp [isSpanEnd]

theorem buildTelemetry_countP_metric (h : Hook) (sr : Bool) (evt : QueryEvent)
    (st : List Frame) (q : String) :
    (buildTelemetry h sr evt st q).effects.countP isMetricRecordE = 0 := by
  rw [List.countP_eq_zero]
  intro e he
  rcases buildTelemetry_effects_mem h sr evt st q e he with ⟨n, rfl⟩ | rfl | ⟨er, rfl⟩ | ⟨a, rfl⟩ <;>
    simp [isMetricRecordE]

theorem deferredEffects_countP_spanEnd (am sr : Bool) (c : Bool) (m : Int) (L : List Label) :
    (deferredEffects ⟨c, am⟩ sr m L).countP isSpanEnd = if sr then 1 else 0 := by
  unfold deferredEffects
  cases sr <;> cases am <;> simp [isSpanEnd, List.countP_cons, List.countP_nil]

theorem deferredEffects_countP_metric (am sr : Bool) (c : Bool) (m : Int) (L : List Label) :
    (deferredEffects ⟨c, am⟩ sr m L).countP isMetricRecordE = if am then 1 else 0 := by
  unfold deferredEffects
  cases sr <;> cases am <;> simp [isMetricRecordE, List.countP_cons, List.countP_nil]

theorem mem_deferredEffects (h : Hook) (sr : Bool) (m : Int) (L : List Label) (e : Effect)
    (he : e ∈ deferredEffects h sr m L) :
    e = Effect.metricRecord m L ∨ e = Effect.spanEnd := by
  obtain ⟨c, am⟩ := h
  unfold deferredEffects at he
  cases sr <;> cases am <;> simp at he <;> tauto

theorem afterQuery_past_fast (h : Hook) (sr : Bool) (evt : QueryEvent) (m : Int)
    (st : List Frame) (hfast : sr = true ∨ h.allowMetric = true) :
    afterQuery h sr evt m st
      = match chosenQuery evt with
        | .error e => (some e, deferredEffects h sr m [])
        | .ok query =>
          (none, (buildTelemetry h sr evt st query).effects
            ++ deferredEffects h sr m (buildTelemetry h sr evt st query).labels) := by
  unfold afterQuery
  rcases hfast with hf | hf <;> rw [hf] <;> simp

/-- C3: for every event, when the span taken from the context is not
recording and AllowMetric is false, AfterQuery returns immediately with a nil
error and performs no span or metric mutation of any kind. -/
theorem afterQuery_fastpath (c : Bool) (evt : QueryEvent) (m : Int) (st : List Frame) :
    afterQuery ⟨c, false⟩ false evt m st = (none, []) := rfl

/-- C9: BeforeQuery always returns a nil error; when the ambient span is not
recording the context is returned unchanged with no span created, otherwise
the returned context carries a newly started span with an empty name. -/
theorem beforeQuery_contract (ctx : Ctx) :
    beforeQuery ctx
      = (if ctx.ambientRecording then { ctx with hookSpan := some "" } else ctx, none) := by
  unfold beforeQuery
  cases hx : ctx.ambientRecording <;> simp

/-- C7: the text recorded in the db.statement attribute is the extracted
statement capped at 5000 characters: a longer statement is truncated to
exactly its first 5000 characters and a statement of at most 5000 characters
is recorded unmodified (the recorded length is min (strLen q) queryLimit). -/
theorem buildTelemetry_statement_capped (h : Hook) (sr : Bool) (evt : QueryEvent)
    (st : List Frame) (q : String) :
    Attr.str "db.statement" (if strLen q > queryLimit then strTake q queryLimit else q)
        ∈ (buildTelemetry h sr evt st q).attrs
    ∧ strLen (if strLen q > queryLimit then strTake q queryLimit else q)
        = min (strLen q) queryLimit := by
  constructor
  · simp [buildTelemetry]
  · by_cases hl : strLen q > queryLimit
    · rw [if_pos hl]
      simp only [strLen, strTake, List.length_take, queryLimit] at hl ⊢
      omega
    · rw [if_neg hl]
      simp only [strLen, queryLimit] at hl ⊢
      omega

/-- C1 counterexample: for the untagged event with statement
"  SELECT * FROM t WHERE id=1" AfterQuery does not derive the span name
"SELECT": the first space sits at index 0, so the statement is not cut at a
space; it is truncated to 20 characters and trimmed, deriving
"SELECT * FROM t WH". -/
theorem afterQuery_leading_space_counterexample :
    Effect.setName "SELECT" ∉ (afterQuery ⟨false, false⟩ true evtLeadingSpace 0 []).2
    ∧ Effect.setName "SELECT * FROM t WH"
        ∈ (afterQuery ⟨false, false⟩ true evtLeadingSpace 0 []).2 := by
  decide

/-- C1 (amended): for every untagged event whose statement extraction yields
q, AfterQuery uses deriveName q as span name and method label, where q is cut
at its first space only when that space occurs at a positive index (a
statement whose first character is a space is not cut), then truncated to 20
characters if longer, then trimmed of surrounding whitespace; in particular
the statement "  SELECT * FROM t WHERE id=1" derives "SELECT * FROM t WH". -/
theorem afterQuery_untagged_naming (h : Hook) (sr : Bool) (evt : QueryEvent)
    (m : Int) (st : List Frame) (q : String)
    (hop : evt.operation = "") (hq : chosenQuery evt = .ok q) :
    (sr = true → Effect.setName (deriveName q) ∈ (afterQuery h sr evt m st).2)
    ∧ Label.mk methodKey (deriveName q) ∈ afterQueryExitLabels h sr evt st
    ∧ (0 < indexByte q ' ' →
        deriveName q
          = trimSpace (if strLen (strTake q (indexByte q ' ').toNat) > 20
              then strTake (strTake q (indexByte q ' ').toNat) 20
              else strTake q (indexByte q ' ').toNat))
    ∧ (indexByte q ' ' ≤ 0 →
        deriveName q = trimSpace (if strLen q > 20 then strTake q 20 else q))
    ∧ deriveName "  SELECT * FROM t WHERE id=1" = "SELECT * FROM t WH" := by
  refine ⟨?_, ?_, ?_, ?_, by decide⟩
  · intro hsr
    subst hsr
    rw [afterQuery_past_fast h true evt m st (Or.inl rfl), hq]
    simp [buildTelemetry, opNameUpdate_fst, hop]
  · simp [afterQueryExitLabels, hq, buildTelemetry, opNameUpdate_snd, hop]
  · intro hpos
    simp [deriveName, hpos]
  · intro hneg
    have hnot : ¬ indexByte q ' ' > 0 := not_lt.mpr hneg
    simp [deriveName, hnot]

/-- C1 witness: a concrete untagged event with statement "SELECT 1" derives
the name SELECT for the span and the method label. -/
theorem afterQuery_untagged_naming_witness :
    Effect.setName "SELECT" ∈ (afterQuery ⟨false, false⟩ true evtSelect1 0 []).2
    ∧ Label.mk methodKey "SELECT" ∈ afterQueryExitLabels ⟨false, false⟩ true evtSelect1 [] := by
  have h := afterQuery_untagged_naming ⟨false, false⟩ true evtSelect1 0 [] "SELECT 1"
    rfl rfl
  have hd : deriveName "SELECT 1" = "SELECT" := by decide
  exact ⟨hd ▸ h.1 rfl, hd ▸ h.2.1⟩

/-- C4: past the fast path, an event whose operation tag equals Insert has
its statement taken from the unformatted text and every other event from the
formatted text; when the chosen extraction fails the error is returned as
AfterQuery's own result and the remaining attribute/label building is skipped
(only the deferred effects, with an empty label slice, still fire). -/
theorem afterQuery_statement_choice (h : Hook) (sr : Bool) (evt : QueryEvent)
    (m : Int) (st : List Frame) (hfast : sr = true ∨ h.allowMetric = true) :
    chosenQuery evt
        = (if evt.operation = InsertOp then evt.unformattedQuery else evt.formattedQuery)
    ∧ (∀ e, chosenQuery evt = .error e →
        afterQuery h sr evt m st = (some e, deferredEffects h sr m []))
    ∧ (∀ q, chosenQuery evt = .ok q →
        afterQuery h sr evt m st
          = (none, (buildTelemetry h sr evt st q).effects
              ++ deferredEffects h sr m (buildTelemetry h sr evt st q).labels)) := by
  refine ⟨rfl, ?_, ?_⟩
  · intro e he
    rw [afterQuery_past_fast h sr evt m st hfast, he]
  · intro q hq
    rw [afterQuery_past_fast h sr evt m st hfast, hq]

/-- C4 witness: a concrete event whose formatted-statement extraction fails
makes AfterQuery return that error, with only the deferred effects fired. -/
theorem afterQuery_statement_choice_witness :
    afterQuery ⟨false, true⟩ false evtFmtFail 5 []
      = (some (GoError.other "fmt fail"), deferredEffects ⟨false, true⟩ false 5 []) :=
  (afterQuery_statement_choice ⟨false, true⟩ false evtFmtFail 5 [] (Or.inr rfl)).2.1
    (GoError.other "fmt fail") (by decide)

theorem outcomeUpdate_err_sentinel (e : GoError) (result : Option PGResult)
    (hs : e = GoError.errNoRows ∨ e = GoError.errMultiRows) :
    outcomeUpdate true (some e) result
      = ([Effect.setStatusError ""], [], [statusErrorLabel]) := by
  rcases hs with rfl | rfl <;> rfl

theorem outcomeUpdate_err_other (e : GoError) (result : Option PGResult)
    (hs : ¬(e = GoError.errNoRows ∨ e = GoError.errMultiRows)) :
    outcomeUpdate true (some e) result
      = ([Effect.recordError e], [], [statusErrorLabel]) := by
  simp [outcomeUpdate, hs]

/-- C2 counterexample: in stackDeep the first 16 frames all carry the library
substring and the 17th frame (main.main) is the first that does not, yet
funcFileLine does not return that frame's data: only 16 program counters are
captured (and the final captured frame is not even observed, arriving with
more = false), so a library frame is reported instead. -/
theorem funcFileLine_beyond_window_counterexample :
    (∀ f ∈ stackDeep.take 16, strContains f.function "github.com/go-pg/pg" = true)
    ∧ strContains appFrameA.function "github.com/go-pg/pg" = false
    ∧ stackDeep.getLast? = some appFrameA
    ∧ funcFileLine "github.com/go-pg/pg" stackDeep
        ≠ (stripLastSlash appFrameA.function, appFrameA.file, appFrameA.line)
    ∧ funcFileLine "github.com/go-pg/pg" stackDeep = ("orm.query", "orm/query.go", 100) := by
  decide

/-- C2 (amended): funcFileLine captures at most the first 16 frames of the
stack starting 3 frames above the helper, and — because the loop tests the
more flag before reading the frame — never observes the final captured
frame.  Among the observed frames (the captured window minus its last
element) it stops at the first whose function name does not contain the
substring and returns that frame's function name (stripped past the final
'/'), file and line; if every observed frame matches, it returns the last
observed frame, which is the Go zero frame ("", "", 0) when fewer than two
frames were captured. -/
theorem funcFileLine_window (pkg : String) (stack : List Frame) :
    (∀ f : Frame,
        ((stack.take 16).dropLast).find? (fun g => !strContains g.function pkg) = some f →
        funcFileLine pkg stack = (stripLastSlash f.function, f.file, f.line))
    ∧ ((∀ g ∈ (stack.take 16).dropLast, strContains g.function pkg = true) →
        funcFileLine pkg stack
          = (stripLastSlash (((stack.take 16).dropLast).getLastD ⟨"", "", 0⟩).function,
             (((stack.take 16).dropLast).getLastD ⟨"", "", 0⟩).file,
             (((stack.take 16).dropLast).getLastD ⟨"", "", 0⟩).line)) := by
  constructor
  · intro f hf
    simp only [funcFileLine]
    rw [funcFileLineLoop_find pkg ((stack.take 16).dropLast) ⟨"", "", 0⟩ f hf]
  · intro hall
    simp only [funcFileLine]
    rw [funcFileLineLoop_all pkg ((stack.take 16).dropLast) ⟨"", "", 0⟩ hall]

/-- C2 witness: frames 0-2 belong to the library substring, frame 3 does not
and is not the final captured frame; the resolver returns frame 3's function
(stripped), file and line. -/
theorem funcFileLine_window_witness :
    funcFileLine "github.com/go-pg/pg" stackShallow = ("run.handler", "app/run.go", 9) := by
  have h := (funcFileLine_window "github.com/go-pg/pg" stackShallow).1 appFrameB (by decide)
  rw [h]
  decide

/-- C10 counterexample: all 16 captured frames of stackSixteenDistinct carry
the library substring, but funcFileLine does not return the 16th captured
frame's data: that frame arrives with more = false and is skipped, so the
15th frame's data is returned. -/
theorem funcFileLine_sixteenth_counterexample :
    (∀ f ∈ stackSixteenDistinct.take 16,
        strContains f.function "github.com/go-pg/pg" = true)
    ∧ stackSixteenDistinct[15]? = some pgFrameC
    ∧ funcFileLine "github.com/go-pg/pg" stackSixteenDistinct
        ≠ (stripLastSlash pgFrameC.function, pgFrameC.file, pgFrameC.line)
    ∧ funcFileLine "github.com/go-pg/pg" stackSixteenDistinct
        = ("v10.exec", "pg/conn.go", 7) := by
  decide

/-- C10 (amended): funcFileLine captures at most 16 program counters — its
result depends only on the first 16 frames of the stack — and when the first
16 frames all contain the package substring it returns the 15th captured
frame's data (the last frame its loop observes, the 16th being yielded
together with more = false and skipped), rather than the 16th frame or the
first external frame beyond the window. -/
theorem funcFileLine_depth_cap (pkg : String) (stack : List Frame) :
    funcFileLine pkg stack = funcFileLine pkg (stack.take 16)
    ∧ (∀ f : Frame, stack[14]? = some f → 16 ≤ stack.length →
        (∀ g ∈ stack.take 16, strContains g.function pkg = true) →
        funcFileLine pkg stack = (stripLastSlash f.function, f.file, f.line)) := by
  constructor
  · simp [funcFileLine, List.take_take]
  · intro f hf hlen hall
    simp only [funcFileLine]
    have hobs : (stack.take 16).dropLast = stack.take 15 := by
      rw [List.dropLast_eq_take, List.length_take, List.take_take]
      congr 1
      omega
    have h15 : (stack.take 16).take 15 = stack.take 15 := by
      rw [List.take_take]
      norm_num
    rw [hobs, funcFileLineLoop_all pkg (stack.take 15) ⟨"", "", 0⟩
      (fun g hg => hall g (List.take_subset 15 (stack.take 16) (h15.symm ▸ hg)))]
    have hlen15 : (stack.take 15).length = 15 := by
      rw [List.length_take]; omega
    have hlast : (stack.take 15).getLastD ⟨"", "", 0⟩ = f := by
      rw [List.getLastD_eq_getLast?, List.getLast?_eq_getElem?, hlen15]
      have h14 : (15 : Nat) - 1 = 14 := rfl
      rw [h14, List.getElem?_take_of_lt (by omega), hf]
      rfl
    rw [hlast]

/-- C10 witness: a stack of exactly 16 library frames makes funcFileLine
return the 15th frame's data (here equal to every frame's data). -/
theorem funcFileLine_depth_cap_witness :
    funcFileLine "github.com/go-pg/pg" stackSixteen = ("v10.exec", "pg/conn.go", 7) := by
  have h := (funcFileLine_depth_cap "github.com/go-pg/pg" stackSixteen).2 pgFrameB
    (by decide) (by decide) (by decide)
  rw [h]
  decide

/-- C5: past the fast path, the span end (when the span is recording) and the
latency record (when metrics are enabled) each occur exactly once on every
exit path of AfterQuery, including the statement-extraction failure path, and
any recorded latency carries the elapsed microseconds together with the final
accumulated state of the label slice at function exit. -/
theorem afterQuery_deferred_once (h : Hook) (sr : Bool) (evt : QueryEvent)
    (m : Int) (st : List Frame) (hfast : sr = true ∨ h.allowMetric = true) :
    ((afterQuery h sr evt m st).2.countP isSpanEnd = if sr then 1 else 0)
    ∧ ((afterQuery h sr evt m st).2.countP isMetricRecordE
        = if h.allowMetric then 1 else 0)
    ∧ (∀ (mi : Int) (L : List Label),
        Effect.metricRecord mi L ∈ (afterQuery h sr evt m st).2 →
        mi = m ∧ L = afterQueryExitLabels h sr evt st) := by
  obtain ⟨c, am⟩ := h
  rw [afterQuery_past_fast ⟨c, am⟩ sr evt m st hfast]
  cases hcq : chosenQuery evt with
  | error e =>
    refine ⟨?_, ?_, ?_⟩
    · simpa using deferredEffects_countP_spanEnd am sr c m []
    · simpa using deferredEffects_countP_metric am sr c m []
    · intro mi L hm
      rcases mem_deferredEffects ⟨c, am⟩ sr m [] _ hm with hEq | hEq
      · obtain ⟨rfl, rfl⟩ := Effect.metricRecord.inj hEq
        exact ⟨rfl, by simp [afterQueryExitLabels, hcq]⟩
      · exact absurd hEq (by simp)
  | ok q =>
    refine ⟨?_, ?_, ?_⟩
    · simpa [List.countP_append, buildTelemetry_countP_spanEnd] using
        deferredEffects_countP_spanEnd am sr c m (buildTelemetry ⟨c, am⟩ sr evt st q).labels
    · simpa [List.countP_append, buildTelemetry_countP_metric] using
        deferredEffects_countP_metric am sr c m (buildTelemetry ⟨c, am⟩ sr evt st q).labels
    · intro mi L hm
      rcases List.mem_append.1 hm with hb | hd
      · rcases buildTelemetry_effects_mem ⟨c, am⟩ sr evt st q _ hb with
          ⟨n, hEq⟩ | hEq | ⟨er, hEq⟩ | ⟨a, hEq⟩ <;> simp at hEq
      · rcases mem_deferredEffects ⟨c, am⟩ sr m _ _ hd with hEq | hEq
        · obtain ⟨rfl, rfl⟩ := Effect.metricRecord.inj hEq
          exact ⟨rfl, by simp [afterQueryExitLabels, hcq]⟩
        · exact absurd hEq (by simp)

/-- C5 witness: with a recording span and metrics enabled, a concrete call
ends the span exactly once and records the latency exactly once. -/
theorem afterQuery_deferred_once_witness :
    ((afterQuery ⟨false, true⟩ true evtSelect1 9 []).2.countP isSpanEnd = 1)
    ∧ ((afterQuery ⟨false, true⟩ true evtSelect1 9 []).2.countP isMetricRecordE = 1) :=
  ⟨(afterQuery_deferred_once ⟨false, true⟩ true evtSelect1 9 [] (Or.inl rfl)).1,
   (afterQuery_deferred_once ⟨false, true⟩ true evtSelect1 9 [] (Or.inl rfl)).2.1⟩

/-- C6: for every event carrying a non-nil error (past the fast path, with
the statement extracted), an error-status metric label is appended in every
case; on a recording span a sentinel error (no-rows-found or
multiple-rows-found) sets the span status to Error with an empty message and
records no exception, while any other error is recorded on the span as a full
exception and no error status is set. -/
theorem afterQuery_error_classification (h : Hook) (sr : Bool) (evt : QueryEvent)
    (m : Int) (st : List Frame) (q : String) (e : GoError)
    (hq : chosenQuery evt = .ok q) (he : evt.err = some e) :
    statusErrorLabel ∈ afterQueryExitLabels h sr evt st
    ∧ (sr = true → (e = GoError.errNoRows ∨ e = GoError.errMultiRows) →
        Effect.setStatusError "" ∈ (afterQuery h sr evt m st).2
        ∧ ∀ er, Effect.recordError er ∉ (afterQuery h sr evt m st).2)
    ∧ (sr = true → ¬(e = GoError.errNoRows ∨ e = GoError.errMultiRows) →
        Effect.recordError e ∈ (afterQuery h sr evt m st).2
        ∧ ∀ msg, Effect.setStatusError msg ∉ (afterQuery h sr evt m st).2) := by
  obtain ⟨c, am⟩ := h
  refine ⟨?_, ?_, ?_⟩
  · simp [afterQueryExitLabels, hq, buildTelemetry, he, outcomeUpdate_err]
  · intro hsr hs
    subst hsr
    rw [afterQuery_past_fast ⟨c, am⟩ true evt m st (Or.inl rfl), hq]
    constructor
    · simp [buildTelemetry, he, outcomeUpdate_err_sentinel e evt.result hs]
    · intro er
      cases am <;>
        simp [buildTelemetry, he, outcomeUpdate_err_sentinel e evt.result hs,
          opNameUpdate_fst, deferredEffects]
  · intro hsr hs
    subst hsr
    rw [afterQuery_past_fast ⟨c, am⟩ true evt m st (Or.inl rfl), hq]
    constructor
    · simp [buildTelemetry, he, outcomeUpdate_err_other e evt.result hs]
    · intro msg
      cases am <;>
        simp [buildTelemetry, he, outcomeUpdate_err_other e evt.result hs,
          opNameUpdate_fst, deferredEffects]

/-- C6 witness: a concrete event carrying the no-rows sentinel yields the
error-status label and an empty-message error status on the span. -/
theorem afterQuery_error_classification_witness :
    statusErrorLabel ∈ afterQueryExitLabels ⟨false, false⟩ true evtNoRows []
    ∧ Effect.setStatusError "" ∈ (afterQuery ⟨false, false⟩ true evtNoRows 3 []).2 := by
  have h := afterQuery_error_classification ⟨false, false⟩ true evtNoRows 3 []
    "SELECT 1" GoError.errNoRows (by decide) rfl
  exact ⟨h.1, (h.2.1 rfl (Or.inl rfl)).1⟩

/-- C8: for every event with no error and a result descriptor (past
statement extraction), AfterQuery builds a db.rows_affected attribute whose
value is the rows-affected count, falling back to the rows-returned count
when rows-affected is zero, appends an OK-status metric label, and, when the
span is recording, writes the attribute batch onto the span. -/
theorem afterQuery_rows_affected (h : Hook) (sr : Bool) (evt : QueryEvent)
    (m : Int) (st : List Frame) (q : String) (r : PGResult)
    (hq : chosenQuery evt = .ok q) (he : evt.err = none) (hr : evt.result = some r) :
    Attr.int "db.rows_affected"
        (if r.rowsAffected = 0 then r.rowsReturned else r.rowsAffected)
      ∈ (buildTelemetry h sr evt st q).attrs
    ∧ statusOKLabel ∈ afterQueryExitLabels h sr evt st
    ∧ (sr = true →
        Effect.setAttributes ((buildTelemetry h sr evt st q).attrs)
          ∈ (afterQuery h sr evt m st).2) := by
  refine ⟨?_, ?_, ?_⟩
  · simp [buildTelemetry, he, hr, outcomeUpdate_ok]
  · simp [afterQueryExitLabels, hq, buildTelemetry, he, hr, outcomeUpdate_ok]
  · intro hsr
    subst hsr
    rw [afterQuery_past_fast h true evt m st (Or.inl rfl), hq]
    simp [buildTelemetry]

/-- C8 witness: rows-affected 0 with rows-returned 7 yields attribute value
7 and the OK-status label. -/
theorem afterQuery_rows_affected_witness :
    Attr.int "db.rows_affected" 7
        ∈ (buildTelemetry ⟨false, false⟩ true evtRows7 [] "SELECT 1").attrs
    ∧ statusOKLabel ∈ afterQueryExitLabels ⟨false, false⟩ true evtRows7 [] := by
  have h := afterQuery_rows_affected ⟨false, false⟩ true evtRows7 0 [] "SELECT 1"
    ⟨0, 7⟩ (by decide) rfl rfl
  exact ⟨by simpa using h.1, h.2.1⟩

end Pgext
